import Mathlib

/-
Verification development for the `hexagen` project scaffolding tool
(`src/main.go`).  The tool's effects on the file system are embedded as
pure functions on an explicit file-system state: paths are lists of
segments, a file-system state gives each path an optional file content
and a directory bit, and every fallible operating-system call is driven
by an explicit environment that says which calls fail (the code itself
never observes the file system beyond these calls).  The environment
also carries the embedded template store (`templates/*`, bundled with
the binary and not part of the repository's checked-in sources).
-/

/-- Paths are lists of segments, resolved against a fixed process root.
`filepath.Join`/`filepath.Abs` are modelled as segment-list append with
the configured root split on `/`. -/
abbrev FPath := List String

/-- A file-system state: optional file bytes at each path, and a
directory bit at each path. -/
structure FS where
  files : FPath → Option String
  isDir : FPath → Bool

/-- The empty file system. -/
def emptyFS : FS := { files := fun _ => none, isDir := fun _ => false }

/-- Effect of `os.WriteFile`/a completed `os.Create`+write at `p`:
the file at `p` now holds `c`; nothing else changes. -/
def FS.writeFile (fs : FS) (p : FPath) (c : String) : FS :=
  { files := fun q => if q = p then some c else fs.files q
    isDir := fs.isDir }

/-- Effect of `os.MkdirAll p`: `p` and every ancestor become
directories; creating an already existing directory is a no-op. -/
def FS.mkdirAll (fs : FS) (p : FPath) : FS :=
  { files := fs.files
    isDir := fun q => if q.isPrefixOf p then true else fs.isDir q }

/-- Effect of `os.RemoveAll p`: the whole subtree at `p` is gone. -/
def FS.removeAll (fs : FS) (p : FPath) : FS :=
  { files := fun q => if p.isPrefixOf q then none else fs.files q
    isDir := fun q => if p.isPrefixOf q then false else fs.isDir q }

/-- Splits a Go-style relative path on `/` into segments
(the effect `filepath.Join(root, rel)` has on the segment list). -/
def splitSlashAux : List Char → List Char → List String
  | acc, [] => [String.mk acc.reverse]
  | acc, '/' :: rest => String.mk acc.reverse :: splitSlashAux [] rest
  | acc, c :: rest => splitSlashAux (c :: acc) rest

/-- Segments of a `/`-separated relative path. -/
def splitSlash (s : String) : FPath := splitSlashAux [] s.data

/-- The `Config` struct of `main.go`. -/
structure Config where
  root : String
  moduleName : String
  port : String
  gitkeep : Bool
  clean : Bool
deriving DecidableEq

/-- The fixed directory manifest `dirs` of `main.go`, verbatim. -/
def dirs : List String :=
  [ "cmd"
  , "commons/constants"
  , "commons/error"
  , "commons/utils"
  , "config/constants"
  , "config/env"
  , "config/init"
  , "recievers"
  , "services/serviceName/service_init"
  , "services/serviceName/data"
  , "services/serviceName/internal"
  , "services/serviceName/routes"
  , "services/serviceName/utils" ]

/-- The template manifest: the four `writeTemplate` calls of `generate`,
in source order, as (output path, template name) pairs. -/
def templateManifest : List (String × String) :=
  [ ("cmd/main.go", "main.go.tmpl")
  , ("services/serviceName/routes/router.go", "router.go.tmpl")
  , ("config/init/serverConfig.go", "serverConfig.go.tmpl")
  , ("commons/utils/logger.go", "logger.go.tmpl") ]

/-- A node of a parsed template: literal text, or a `.NAME` field action
(written `\x7b\x7b.NAME\x7d\x7d` in template source). -/
inductive TNode
  | text (s : String)
  | field (name : String)
deriving DecidableEq

/-- Splits template source at each occurrence of the action opener
`\x7b\x7b` (two opening braces); models the `text/template` lexer for
the fragment of the language these templates use. -/
def splitBB : List Char → List (List Char)
  | '\x7b' :: '\x7b' :: rest => [] :: splitBB rest
  | c :: rest =>
    match splitBB rest with
    | [] => [[c]]
    | g :: gs => (c :: g) :: gs
  | [] => [[]]

/-- Finds the first action closer `\x7d\x7d` (two closing braces),
returning the characters before it and the remaining characters. -/
def findClose : List Char → Option (List Char × List Char)
  | '\x7d' :: '\x7d' :: rest => some ([], rest)
  | c :: rest => (findClose rest).map (fun pr => (c :: pr.1, pr.2))
  | [] => none

/-- A field name acceptable to `text/template`: nonempty, alphanumeric
or underscore characters. -/
def validFieldName (s : String) : Bool :=
  decide (s.length > 0) && s.data.all (fun c => c.isAlphanum || c == '_')

/-- Parses one group following an action opener: a `.NAME` field action
closed by two closing braces, then literal text. -/
def parseGroup (g : List Char) : Except String (List TNode) :=
  match findClose g with
  | none => Except.error "unclosed action"
  | some pr =>
    match pr.1 with
    | '.' :: nameChars =>
      let nm := String.mk nameChars
      if validFieldName nm then Except.ok [TNode.field nm, TNode.text (String.mk pr.2)]
      else Except.error "bad character in action"
    | _ => Except.error "expected a field action"

/-- Parses every group after the leading literal. -/
def parseGroups : List (List Char) → Except String (List TNode)
  | [] => Except.ok []
  | g :: gs =>
    match parseGroup g, parseGroups gs with
    | Except.ok ns, Except.ok rest => Except.ok (ns ++ rest)
    | Except.error e, _ => Except.error e
    | _, Except.error e => Except.error e

/-- Parsing of template source: models `template.Parse` for the
field-substitution fragment `hexagen`'s templates use — literal text
interleaved with `\x7b\x7b.NAME\x7d\x7d` actions. -/
def parseT (text : String) : Except String (List TNode) :=
  match splitBB text.data with
  | [] => Except.ok []
  | lit :: gs =>
    match parseGroups gs with
    | Except.ok ns => Except.ok (TNode.text (String.mk lit) :: ns)
    | Except.error e => Except.error e

/-- Evaluation of one node against the substitution data.  Per the
documented default `missingkey` behaviour of Go `text/template`, a map
access whose key is absent prints the fixed string `<no value>`. -/
def execNode (ctx : List (String × String)) : TNode → String
  | TNode.text s => s
  | TNode.field n => (ctx.lookup n).getD "<no value>"

/-- Rendering of a parsed template: every node evaluated, in order,
surrounding literal text preserved verbatim. -/
def execT (ns : List TNode) (ctx : List (String × String)) : String :=
  String.join (ns.map (execNode ctx))

/-- The substitution data `writeTemplate` builds:
`MODULE` and `PORT` are its only keys. -/
def substMap (cfg : Config) : List (String × String) :=
  [("MODULE", cfg.moduleName), ("PORT", cfg.port)]

/-- Errors `generate` can return, one per fallible call it checks. -/
inductive GenError
  | rootCreationFailed
  | staticWriteFailed (path : FPath)
  | templateNotFound (name : String)
  | templateParseError (name : String) (msg : String)
  | createFailed (path : FPath)
  | execFailed (name : String)
deriving DecidableEq

/-- The environment a run executes against: the embedded template
store, and for every fallible operating-system call an oracle saying
whether it fails (plus, for a failing template execution, the bytes it
managed to write before failing). -/
structure Env where
  embedded : String → Option String
  mkdirFails : FPath → Bool
  writeFails : FPath → Bool
  removeFails : FPath → Bool
  readDirFails : Bool
  execFails : String → Bool
  execWritten : String → String

/-- An environment in which every operating-system call succeeds and
the template store is `store`. -/
def okEnv (store : String → Option String) : Env :=
  { embedded := store
    mkdirFails := fun _ => false
    writeFails := fun _ => false
    removeFails := fun _ => false
    readDirFails := false
    execFails := fun _ => false
    execWritten := fun _ => "" }

/-- Failure-freedom of an environment: every oracle reports success. -/
structure EnvFailFree (env : Env) : Prop where
  mkdir : ∀ p, env.mkdirFails p = false
  write : ∀ p, env.writeFails p = false
  remove : ∀ p, env.removeFails p = false
  readDir : env.readDirFails = false
  run : ∀ n, env.execFails n = false

/-- Strict containment below `root`: `root` is a proper prefix of `q`. -/
def strictUnder (root q : FPath) : Bool :=
  root.isPrefixOf q && decide (root.length < q.length)

/-- The immediate child of `root` on the way to `q` (the entry
`os.ReadDir` would list and `os.RemoveAll` would be called on). -/
def childOf (root q : FPath) : FPath := root ++ [q.getD root.length ""]

/-- Whether the clean step removes the entry at `q`: it is strictly
below the root and the removal of its top-level ancestor did not fail
(removal errors are ignored by the code). -/
def removedByClean (env : Env) (root q : FPath) : Bool :=
  strictUnder root q && !env.removeFails (childOf root q)

/-- The clean step of `generate`: enumerate the immediate children of
the root (a `ReadDir` failure is ignored and leaves nothing to remove)
and `RemoveAll` each, ignoring per-entry errors. -/
def cleanStep (env : Env) (root : FPath) (fs : FS) : FS :=
  if env.readDirFails then fs
  else
    { files := fun q => if removedByClean env root q then none else fs.files q
      isDir := fun q => if removedByClean env root q then false else fs.isDir q }

/-- An `os.MkdirAll` call whose error the code discards. -/
def ensureDir (env : Env) (fs : FS) (p : FPath) : FS :=
  if env.mkdirFails p then fs else fs.mkdirAll p

/-- The path of a manifest directory under `root`
(`filepath.Join(rootAbs, dir)` in the loop). -/
def dirPath (root : FPath) (d : String) : FPath := root ++ splitSlash d

/-- The path of a manifest directory's marker file
(`filepath.Join(path, ".gitkeep")` in the loop). -/
def markerPath (root : FPath) (d : String) : FPath := dirPath root d ++ [".gitkeep"]

/-- One iteration of the directory loop of `generate`: `MkdirAll` the
manifest directory (error discarded), and under the gitkeep flag write
an empty `.gitkeep` marker into it (error discarded). -/
def dirStep1 (env : Env) (cfg : Config) (root : FPath) (fs : FS) (d : String) : FS :=
  let fs1 := ensureDir env fs (dirPath root d)
  if cfg.gitkeep then
    if env.writeFails (markerPath root d) then fs1
    else fs1.writeFile (markerPath root d) ""
  else fs1

/-- The directory loop of `generate` over the manifest, in order. -/
def dirsStep (env : Env) (cfg : Config) (root : FPath) (fs : FS) : FS :=
  dirs.foldl (dirStep1 env cfg root) fs

/-- Content of the module descriptor `writeGoMod` emits. -/
def goModContent (module : String) : String :=
  "module " ++ module ++ "\n\ngo 1.22.0\n"

/-- Content of the build file `writeMakefile` emits. -/
def makefileContent (port : String) : String :=
  "PORT ?= " ++ port ++
    "\n\nrun:\n\tgo run ./cmd/main.go\n\nbuild:\n\tgo build -o bin/app ./cmd/main.go\n\ntest:\n\tgo test ./...\n\nsetup:\n\tgo mod tidy\n"

/-- The `writeGoMod` helper: one checked `os.WriteFile` at
`root/go.mod`. -/
def writeGoMod (env : Env) (root : FPath) (module : String) (fs : FS) :
    Except GenError Unit × FS :=
  if env.writeFails (root ++ ["go.mod"]) then
    (Except.error (GenError.staticWriteFailed (root ++ ["go.mod"])), fs)
  else (Except.ok (), fs.writeFile (root ++ ["go.mod"]) (goModContent module))

/-- The `writeMakefile` helper: one checked `os.WriteFile` at
`root/Makefile`. -/
def writeMakefile (env : Env) (root : FPath) (port : String) (fs : FS) :
    Except GenError Unit × FS :=
  if env.writeFails (root ++ ["Makefile"]) then
    (Except.error (GenError.staticWriteFailed (root ++ ["Makefile"])), fs)
  else (Except.ok (), fs.writeFile (root ++ ["Makefile"]) (makefileContent port))

/-- The `writeTemplate` helper of `main.go`: load the embedded template
text, parse it, ensure the output's parent directory (error discarded),
create/truncate the output file, and execute the substitution into it;
each checked failure returns immediately with the cause. -/
def writeTemplate (env : Env) (root : FPath) (outputPath templateName : String)
    (cfg : Config) (fs : FS) : Except GenError Unit × FS :=
  match env.embedded ("templates/" ++ templateName) with
  | none => (Except.error (GenError.templateNotFound templateName), fs)
  | some text =>
    match parseT text with
    | Except.error m => (Except.error (GenError.templateParseError templateName m), fs)
    | Except.ok ns =>
      let outP := root ++ splitSlash outputPath
      let fs1 := ensureDir env fs outP.dropLast
      if env.writeFails outP then (Except.error (GenError.createFailed outP), fs1)
      else
        let fs2 := fs1.writeFile outP ""
        if env.execFails templateName then
          (Except.error (GenError.execFailed templateName),
            fs2.writeFile outP (env.execWritten templateName))
        else (Except.ok (), fs2.writeFile outP (execT ns (substMap cfg)))

/-- The template-rendering loop: the four `writeTemplate` calls of
`generate`, in source order, aborting on the first error. -/
def runTemplates (env : Env) (cfg : Config) (root : FPath) :
    List (String × String) → FS → Except GenError Unit × FS
  | [], fs => (Except.ok (), fs)
  | e :: rest, fs =>
    match writeTemplate env root e.1 e.2 cfg fs with
    | (Except.ok _, fs1) => runTemplates env cfg root rest fs1
    | (Except.error err, fs1) => (Except.error err, fs1)

/-- State of the file system after root creation, the optional clean
step and the directory loop (the unchecked-failure part of
`generate`). -/
def prepState (env : Env) (cfg : Config) (fs : FS) : FS :=
  let root := splitSlash cfg.root
  let fs1 := fs.mkdirAll root
  let fs2 := if cfg.clean then cleanStep env root fs1 else fs1
  dirsStep env cfg root fs2

/-- The `generate` function of `main.go`: root creation (its failure is
fatal), optional clean, directory loop, the two static files, then the
template manifest; the first checked error is returned with the file
system as it stands at that point. -/
def generate (env : Env) (cfg : Config) (fs : FS) : Except GenError Unit × FS :=
  let root := splitSlash cfg.root
  if env.mkdirFails root then (Except.error GenError.rootCreationFailed, fs)
  else
    match writeGoMod env root cfg.moduleName (prepState env cfg fs) with
    | (Except.error e, fs4) => (Except.error e, fs4)
    | (Except.ok _, fs4) =>
      match writeMakefile env root cfg.port fs4 with
      | (Except.error e, fs5) => (Except.error e, fs5)
      | (Except.ok _, fs5) => runTemplates env cfg root templateManifest fs5

/-- State of the file system after both static files succeeded. -/
def staticsState (env : Env) (cfg : Config) (fs : FS) : FS :=
  ((prepState env cfg fs).writeFile (splitSlash cfg.root ++ ["go.mod"])
      (goModContent cfg.moduleName)).writeFile
    (splitSlash cfg.root ++ ["Makefile"]) (makefileContent cfg.port)

/-- What `main` reports: the process exit code and the message printed
to the error stream (the `Error: %v` line), if any. -/
structure MainResult where
  exitCode : Nat
  stderrMsg : Option GenError
deriving DecidableEq

/-- The tail of `main` around the `generate` call: an error exits with
code 1 after printing it to standard error; success exits 0. -/
def runMain (env : Env) (cfg : Config) (fs : FS) : MainResult × FS :=
  match generate env cfg fs with
  | (Except.ok _, fs1) => ({ exitCode := 0, stderrMsg := none }, fs1)
  | (Except.error e, fs1) => ({ exitCode := 1, stderrMsg := some e }, fs1)

/-- The five interactive answers `main` reads in interactive mode, as
typed (each `ReadString` result with its newline still attached is
immediately trimmed by the code). -/
structure Answers where
  root : String
  moduleName : String
  port : String
  gitkeep : String
  clean : String

/-- Drops leading whitespace characters. -/
def dropWS : List Char → List Char
  | [] => []
  | c :: rest => if c.isWhitespace then dropWS rest else c :: rest

/-- Model of Go `strings.TrimSpace`: leading and trailing whitespace
removed. -/
def trimStr (s : String) : String :=
  String.mk ((dropWS ((dropWS s.data).reverse)).reverse)

/-- Model of Go `strings.ToLower`. -/
def lowerStr (s : String) : String := String.mk (s.data.map Char.toLower)

/-- The interactive prompt block of `main`: a nonblank trimmed answer
replaces each string field; the two boolean prompts set their flag when
the trimmed, lowercased answer is `y` and leave it alone otherwise. -/
def applyInteractive (cfg : Config) (a : Answers) : Config :=
  let c1 := if trimStr a.root ≠ "" then { cfg with root := trimStr a.root } else cfg
  let c2 := if trimStr a.moduleName ≠ "" then { c1 with moduleName := trimStr a.moduleName } else c1
  let c3 := if trimStr a.port ≠ "" then { c2 with port := trimStr a.port } else c2
  let c4 := if lowerStr (trimStr a.gitkeep) = "y" then { c3 with gitkeep := true } else c3
  if lowerStr (trimStr a.clean) = "y" then { c4 with clean := true } else c4

/-- Configuration resolution in `main`: flags, then the interactive
block when enabled, then the default module name when still empty. -/
def resolveConfig (flags : Config) (interactive : Bool) (a : Answers) : Config :=
  let cfg := if interactive then applyInteractive flags a else flags
  if cfg.moduleName = "" then { cfg with moduleName := "service.com/service" } else cfg

/-- Reading of claim C8's override rule word for word: every field of
the result equals the corresponding typed answer, an empty or
whitespace-only answer keeping the flag value; a boolean answer is the
test `y` (trimmed, lowercased). -/
def claimedInteractive (cfg : Config) (a : Answers) : Config :=
  { root := if trimStr a.root ≠ "" then trimStr a.root else cfg.root
    moduleName := if trimStr a.moduleName ≠ "" then trimStr a.moduleName else cfg.moduleName
    port := if trimStr a.port ≠ "" then trimStr a.port else cfg.port
    gitkeep := if trimStr a.gitkeep = "" then cfg.gitkeep
      else decide (lowerStr (trimStr a.gitkeep) = "y")
    clean := if trimStr a.clean = "" then cfg.clean
      else decide (lowerStr (trimStr a.clean) = "y") }

/-- Marker paths the directory loop may write under `root`. -/
def markerPaths (root : FPath) : List FPath :=
  dirs.map (fun d => markerPath root d)

/-- Output paths of the template manifest under `root`. -/
def outPaths (root : FPath) : List FPath :=
  templateManifest.map (fun e => root ++ splitSlash e.1)

/-- Every path at which `generate` ever writes a file under `root`. -/
def writtenPaths (root : FPath) : List FPath :=
  markerPaths root ++ [root ++ ["go.mod"], root ++ ["Makefile"]] ++ outPaths root

/-- A template store offering the single-character literal template
`x` under every name (used to instantiate runs on concrete inputs). -/
def storeX : String → Option String := fun _ => some "x"

/-- A store whose only entry is `templates/t.tmpl`, a template whose
field `FOO` is not a substitution key. -/
def storeFoo : String → Option String :=
  fun n => if n = "templates/t.tmpl" then some "A \x7b\x7b.FOO\x7d\x7d B" else none

/-- Concrete configuration: clean regeneration of `out` with markers. -/
def cfgAcme : Config :=
  { root := "out", moduleName := "github.com/acme/widget", port := "9090"
    gitkeep := true, clean := true }

/-- Concrete configuration: plain run without markers or clean. -/
def cfgPlain : Config :=
  { root := "out", moduleName := "service.com/service", port := "8080"
    gitkeep := false, clean := false }

/-- A fully working environment over the trivial store. -/
def envOkX : Env := okEnv storeX

/-- An environment in which every `MkdirAll` fails. -/
def envRootFail : Env := { okEnv storeX with mkdirFails := fun _ => true }

/-- A working environment over an empty template store. -/
def envNoTmpl : Env := okEnv (fun _ => none)

/-- A working environment over the unknown-placeholder store. -/
def envFoo : Env := okEnv storeFoo

/-- A file system holding one unrelated pre-existing file
`out/foo.txt`. -/
def fsFoo : FS := emptyFS.writeFile ["out", "foo.txt"] "hello"

/-- Flag configuration for the interactive counterexample: the gitkeep
flag arrives set. -/
def cfgFlagsG : Config :=
  { root := ".", moduleName := "", port := "8080", gitkeep := true, clean := false }

/-- Typed answers for the interactive counterexample: `n` to the
gitkeep prompt, everything else left blank. -/
def ansN : Answers :=
  { root := "", moduleName := "", port := "", gitkeep := "n", clean := "" }

/-- The four rendered source files paired with the manifest directory
each one lands in. -/
def srcDirPairs : List (String × String) :=
  [ ("cmd/main.go", "cmd")
  , ("services/serviceName/routes/router.go", "services/serviceName/routes")
  , ("config/init/serverConfig.go", "config/init")
  , ("commons/utils/logger.go", "commons/utils") ]

/-- Appending distinct suffixes to the same root gives distinct paths. -/
theorem root_app_ne (root : FPath) {a b : FPath} (h : a ≠ b) :
    root ++ a ≠ root ++ b := by
  intro he
  exact h (List.append_cancel_left he)

/-- Paths with distinct last segments are distinct. -/
theorem ne_of_last_ne {p q : FPath} {x y : String} (hx : p.getLast? = some x)
    (hy : q.getLast? = some y) (hxy : x ≠ y) : p ≠ q := by
  intro h
  subst h
  rw [hy] at hx
  cases hx
  exact hxy rfl

/-- Last segment of a root-relative path. -/
theorem getLast_root_app (root : FPath) {s : FPath} (h : s ≠ []) :
    (root ++ s).getLast? = s.getLast? :=
  List.getLast?_append_of_ne_nil root h

/-- Writing one file leaves every other path's content alone. -/
theorem files_writeFile_ne (fs : FS) {p q : FPath} (c : String) (h : q ≠ p) :
    (fs.writeFile p c).files q = fs.files q := by
  simp [FS.writeFile, h]

/-- Writing a file stores exactly its content. -/
theorem files_writeFile_self (fs : FS) (p : FPath) (c : String) :
    (fs.writeFile p c).files p = some c := by
  simp [FS.writeFile]

/-- Directory creation touches no file contents. -/
theorem files_mkdirAll (fs : FS) (p : FPath) :
    (fs.mkdirAll p).files = fs.files := rfl

/-- File writes touch no directory bits. -/
theorem isDir_writeFile (fs : FS) (p : FPath) (c : String) :
    (fs.writeFile p c).isDir = fs.isDir := rfl

/-- Directory creation never clears a directory bit. -/
theorem isDir_mkdirAll_mono (fs : FS) (p q : FPath) (h : fs.isDir q = true) :
    (fs.mkdirAll p).isDir q = true := by
  simp only [FS.mkdirAll]
  split <;> simp [h]

/-- A rendering step never touches file contents away from its own
output path, whatever its outcome. -/
theorem writeTemplate_files_pres (env : Env) (root : FPath) (out nm : String)
    (cfg : Config) (fs : FS) (q : FPath) (hq : q ≠ root ++ splitSlash out) :
    ((writeTemplate env root out nm cfg fs).2).files q = fs.files q := by
  rcases hemb : env.embedded ("templates/" ++ nm) with _ | text
  · simp [writeTemplate, hemb]
  · rcases hp : parseT text with m | ns
    · simp [writeTemplate, hemb, hp]
    · by_cases hw : env.writeFails (root ++ splitSlash out) = true
      · simp [writeTemplate, hemb, hp, hw, ensureDir, files_mkdirAll]
        split <;> simp [files_mkdirAll]
      · by_cases he : env.execFails nm = true <;>
          simp [writeTemplate, hemb, hp, hw, he, ensureDir,
            files_writeFile_ne fs _ hq, FS.writeFile, FS.mkdirAll, hq] <;>
          split <;> simp [hq]

/-- A rendering step never clears a directory bit. -/
theorem writeTemplate_isDir_mono (env : Env) (root : FPath) (out nm : String)
    (cfg : Config) (fs : FS) (q : FPath) (h : fs.isDir q = true) :
    ((writeTemplate env root out nm cfg fs).2).isDir q = true := by
  rcases hemb : env.embedded ("templates/" ++ nm) with _ | text
  · simp [writeTemplate, hemb, h]
  · rcases hp : parseT text with m | ns
    · simp [writeTemplate, hemb, hp, h]
    · by_cases hw : env.writeFails (root ++ splitSlash out) = true <;>
        by_cases he : env.execFails nm = true <;>
        simp [writeTemplate, hemb, hp, hw, he, ensureDir, isDir_writeFile] <;>
        split <;> simp [h, isDir_mkdirAll_mono, FS.writeFile]

/-- Outcome of a rendering step does not depend on the file-system
state it starts from. -/
theorem writeTemplate_fst_indep (env : Env) (root : FPath) (out nm : String)
    (cfg : Config) (fs fs' : FS) :
    (writeTemplate env root out nm cfg fs).1 = (writeTemplate env root out nm cfg fs').1 := by
  rcases hemb : env.embedded ("templates/" ++ nm) with _ | text
  · simp [writeTemplate, hemb]
  · rcases hp : parseT text with m | ns
    · simp [writeTemplate, hemb, hp]
    · by_cases hw : env.writeFails (root ++ splitSlash out) = true <;>
        by_cases he : env.execFails nm = true <;>
        simp [writeTemplate, hemb, hp, hw, he]

/-- A rendering step never erases a file: at each path it either leaves
the old content or stores some content. -/
theorem writeTemplate_files_some (env : Env) (root : FPath) (out nm : String)
    (cfg : Config) (fs : FS) (q : FPath) :
    ((writeTemplate env root out nm cfg fs).2).files q = fs.files q
    ∨ ∃ c, ((writeTemplate env root out nm cfg fs).2).files q = some c := by
  by_cases hq : q = root ++ splitSlash out
  · subst hq
    rcases hemb : env.embedded ("templates/" ++ nm) with _ | text
    · simp [writeTemplate, hemb]
    · rcases hp : parseT text with m | ns
      · simp [writeTemplate, hemb, hp]
      · by_cases hw : env.writeFails (root ++ splitSlash out) = true
        · simp [writeTemplate, hemb, hp, hw, ensureDir]
          split <;> simp [files_mkdirAll]
        · by_cases he : env.execFails nm = true <;>
            simp [writeTemplate, hemb, hp, hw, he, files_writeFile_self]
  · exact Or.inl (writeTemplate_files_pres env root out nm cfg fs q hq)

/-- The rendering loop never touches file contents away from the
output paths of its entries, whatever its outcome. -/
theorem runTemplates_files_pres (env : Env) (cfg : Config) (root : FPath)
    (es : List (String × String)) (fs : FS) (q : FPath)
    (hq : ∀ e ∈ es, q ≠ root ++ splitSlash e.1) :
    ((runTemplates env cfg root es fs).2).files q = fs.files q := by
  induction es generalizing fs with
  | nil => rfl
  | cons e rest ih =>
    have hqe : q ≠ root ++ splitSlash e.1 := hq e (by simp)
    have hrest : ∀ e2 ∈ rest, q ≠ root ++ splitSlash e2.1 := by
      intro e2 he2
      exact hq e2 (by simp [he2])
    rcases hw : writeTemplate env root e.1 e.2 cfg fs with ⟨r, fs1⟩
    have hfs1 : fs1.files q = fs.files q := by
      have := writeTemplate_files_pres env root e.1 e.2 cfg fs q hqe
      rw [hw] at this
      exact this
    cases r with
    | ok u => simp [runTemplates, hw, ih fs1 hrest, hfs1]
    | error err => simp [runTemplates, hw, hfs1]

/-- The rendering loop never clears a directory bit. -/
theorem runTemplates_isDir_mono (env : Env) (cfg : Config) (root : FPath)
    (es : List (String × String)) (fs : FS) (q : FPath) (h : fs.isDir q = true) :
    ((runTemplates env cfg root es fs).2).isDir q = true := by
  induction es generalizing fs with
  | nil => exact h
  | cons e rest ih =>
    rcases hw : writeTemplate env root e.1 e.2 cfg fs with ⟨r, fs1⟩
    have hfs1 : fs1.isDir q = true := by
      have := writeTemplate_isDir_mono env root e.1 e.2 cfg fs q h
      rw [hw] at this
      exact this
    cases r with
    | ok u => simp [runTemplates, hw, ih fs1 hfs1]
    | error err => simp [runTemplates, hw, hfs1]

/-- The rendering loop never erases a file. -/
theorem runTemplates_files_some (env : Env) (cfg : Config) (root : FPath)
    (es : List (String × String)) (fs : FS) (q : FPath) :
    ((runTemplates env cfg root es fs).2).files q = fs.files q
    ∨ ∃ c, ((runTemplates env cfg root es fs).2).files q = some c := by
  induction es generalizing fs with
  | nil => exact Or.inl rfl
  | cons e rest ih =>
    rcases hw : writeTemplate env root e.1 e.2 cfg fs with ⟨r, fs1⟩
    have hfs1 : fs1.files q = fs.files q ∨ ∃ c, fs1.files q = some c := by
      have := writeTemplate_files_some env root e.1 e.2 cfg fs q
      rw [hw] at this
      exact this
    cases r with
    | ok u =>
      have := ih fs1
      simp only [runTemplates, hw]
      rcases this with h1 | h1
      · rcases hfs1 with h2 | h2
        · exact Or.inl (h1.trans h2)
        · rcases h2 with ⟨c, h2⟩
          exact Or.inr ⟨c, h1.trans h2⟩
      · exact Or.inr h1
    | error err => simp only [runTemplates, hw]; exact hfs1

/-- Outcome of the rendering loop does not depend on the file-system
state it starts from. -/
theorem runTemplates_fst_indep (env : Env) (cfg : Config) (root : FPath)
    (es : List (String × String)) (fs fs' : FS) :
    (runTemplates env cfg root es fs).1 = (runTemplates env cfg root es fs').1 := by
  induction es generalizing fs fs' with
  | nil => rfl
  | cons e rest ih =>
    have hfst := writeTemplate_fst_indep env root e.1 e.2 cfg fs fs'
    rcases hw : writeTemplate env root e.1 e.2 cfg fs with ⟨r, fs1⟩
    rcases hw' : writeTemplate env root e.1 e.2 cfg fs' with ⟨r', fs1'⟩
    rw [hw, hw'] at hfst
    simp only at hfst
    subst hfst
    cases r with
    | ok u => simp [runTemplates, hw, hw', ih fs1 fs1']
    | error err => simp [runTemplates, hw, hw']

/-- Creating a directory marks that directory. -/
theorem isDir_mkdirAll_self (fs : FS) (p : FPath) :
    (fs.mkdirAll p).isDir p = true := by
  simp [FS.mkdirAll]

/-- Contents of one directory-loop iteration, at every path: the empty
marker lands at this entry's marker path when the flag is on and the
marker write succeeds; every other path is untouched. -/
theorem dirStep1_files_eq (env : Env) (cfg : Config) (root : FPath)
    (fs : FS) (d : String) (q : FPath) :
    (dirStep1 env cfg root fs d).files q =
      if cfg.gitkeep = true ∧ env.writeFails (markerPath root d) = false
          ∧ q = markerPath root d then some ""
      else fs.files q := by
  unfold dirStep1 ensureDir
  by_cases hg : cfg.gitkeep = true <;>
    by_cases hw : env.writeFails (markerPath root d) = true <;>
    by_cases hm : env.mkdirFails (dirPath root d) = true <;>
    by_cases hq : q = markerPath root d <;>
    simp [hg, hw, hm, hq, FS.writeFile, files_mkdirAll]

/-- Directory bits of one directory-loop iteration: ancestors of this
entry's directory get marked when its `MkdirAll` succeeds; no bit is
ever cleared. -/
theorem dirStep1_isDir_eq (env : Env) (cfg : Config) (root : FPath)
    (fs : FS) (d : String) (q : FPath) :
    (dirStep1 env cfg root fs d).isDir q =
      if env.mkdirFails (dirPath root d) = false ∧ q.isPrefixOf (dirPath root d) = true
      then true
      else fs.isDir q := by
  unfold dirStep1 ensureDir
  by_cases hg : cfg.gitkeep = true <;>
    by_cases hw : env.writeFails (markerPath root d) = true <;>
    by_cases hm : env.mkdirFails (dirPath root d) = true <;>
    by_cases hq : q <+: dirPath root d <;>
    simp [hg, hw, hm, hq, isDir_writeFile, FS.mkdirAll]

/-- One directory-loop iteration touches no file contents away from its
own marker path. -/
theorem dirStep1_files_pres (env : Env) (cfg : Config) (root : FPath)
    (fs : FS) (d : String) (q : FPath) (hq : q ≠ markerPath root d) :
    (dirStep1 env cfg root fs d).files q = fs.files q := by
  rw [dirStep1_files_eq]
  simp [hq]

/-- One directory-loop iteration with the gitkeep flag off writes no
file at all. -/
theorem dirStep1_files_id (env : Env) (cfg : Config) (root : FPath)
    (fs : FS) (d : String) (hg : cfg.gitkeep = false) :
    (dirStep1 env cfg root fs d).files = fs.files := by
  funext q
  rw [dirStep1_files_eq]
  simp [hg]

/-- Once a path holds the empty marker content, the directory loop
keeps it so (every file the loop writes is the empty marker). -/
theorem dirStep1_files_keep (env : Env) (cfg : Config) (root : FPath)
    (fs : FS) (d : String) (q : FPath) (h : fs.files q = some "") :
    (dirStep1 env cfg root fs d).files q = some "" := by
  rw [dirStep1_files_eq]
  split <;> simp [h]

/-- One directory-loop iteration never clears a directory bit. -/
theorem dirStep1_isDir_mono (env : Env) (cfg : Config) (root : FPath)
    (fs : FS) (d : String) (q : FPath) (h : fs.isDir q = true) :
    (dirStep1 env cfg root fs d).isDir q = true := by
  rw [dirStep1_isDir_eq]
  split <;> simp [h]

/-- Processing a directory marks it when its `MkdirAll` succeeds. -/
theorem dirStep1_isDir_self (env : Env) (cfg : Config) (root : FPath)
    (fs : FS) (d : String) (hmk : env.mkdirFails (dirPath root d) = false) :
    (dirStep1 env cfg root fs d).isDir (dirPath root d) = true := by
  rw [dirStep1_isDir_eq]
  simp [hmk, List.isPrefixOf_iff_prefix]

/-- Processing a directory with the gitkeep flag on and a succeeding
marker write stores the empty marker. -/
theorem dirStep1_marker_self (env : Env) (cfg : Config) (root : FPath)
    (fs : FS) (d : String) (hg : cfg.gitkeep = true)
    (hw : env.writeFails (markerPath root d) = false) :
    (dirStep1 env cfg root fs d).files (markerPath root d) = some "" := by
  rw [dirStep1_files_eq]
  simp [hg, hw]

/-- The whole directory loop, over any manifest tail, touches no file
contents away from the marker paths of its entries. -/
theorem dirsFold_files_pres (env : Env) (cfg : Config) (root : FPath)
    (ds : List String) (fs : FS) (q : FPath)
    (hq : ∀ d ∈ ds, q ≠ markerPath root d) :
    (ds.foldl (dirStep1 env cfg root) fs).files q = fs.files q := by
  induction ds generalizing fs with
  | nil => rfl
  | cons d rest ih =>
    have h1 := dirStep1_files_pres env cfg root fs d q (hq d (by simp))
    have h2 : ∀ d2 ∈ rest, q ≠ markerPath root d2 := by
      intro d2 hd2
      exact hq d2 (by simp [hd2])
    simp only [List.foldl_cons]
    rw [ih (dirStep1 env cfg root fs d) h2, h1]

/-- The whole directory loop with the gitkeep flag off writes no file. -/
theorem dirsFold_files_id (env : Env) (cfg : Config) (root : FPath)
    (ds : List String) (fs : FS) (hg : cfg.gitkeep = false) :
    (ds.foldl (dirStep1 env cfg root) fs).files = fs.files := by
  induction ds generalizing fs with
  | nil => rfl
  | cons d rest ih =>
    simp only [List.foldl_cons]
    rw [ih (dirStep1 env cfg root fs d), dirStep1_files_id env cfg root fs d hg]

/-- The whole directory loop keeps an empty marker in place. -/
theorem dirsFold_files_keep (env : Env) (cfg : Config) (root : FPath)
    (ds : List String) (fs : FS) (q : FPath) (h : fs.files q = some "") :
    (ds.foldl (dirStep1 env cfg root) fs).files q = some "" := by
  induction ds generalizing fs with
  | nil => exact h
  | cons d rest ih =>
    simp only [List.foldl_cons]
    exact ih (dirStep1 env cfg root fs d) (dirStep1_files_keep env cfg root fs d q h)

/-- The whole directory loop never clears a directory bit. -/
theorem dirsFold_isDir_mono (env : Env) (cfg : Config) (root : FPath)
    (ds : List String) (fs : FS) (q : FPath) (h : fs.isDir q = true) :
    (ds.foldl (dirStep1 env cfg root) fs).isDir q = true := by
  induction ds generalizing fs with
  | nil => exact h
  | cons d rest ih =>
    simp only [List.foldl_cons]
    exact ih (dirStep1 env cfg root fs d) (dirStep1_isDir_mono env cfg root fs d q h)

/-- Every listed directory whose `MkdirAll` succeeds is a directory
after the loop, whatever happens to the other entries. -/
theorem dirsFold_isDir (env : Env) (cfg : Config) (root : FPath)
    (ds : List String) (fs : FS) (d : String) (hd : d ∈ ds)
    (hmk : env.mkdirFails (dirPath root d) = false) :
    (ds.foldl (dirStep1 env cfg root) fs).isDir (dirPath root d) = true := by
  induction ds generalizing fs with
  | nil => cases hd
  | cons a rest ih =>
    simp only [List.foldl_cons]
    rcases List.mem_cons.mp hd with h | h
    · subst h
      exact dirsFold_isDir_mono env cfg root rest (dirStep1 env cfg root fs d)
        (dirPath root d) (dirStep1_isDir_self env cfg root fs d hmk)
    · exact ih (dirStep1 env cfg root fs a) h

/-- Under the gitkeep flag, every listed directory whose marker write
succeeds holds the empty marker after the loop, whatever happens to the
other entries. -/
theorem dirsFold_marker (env : Env) (cfg : Config) (root : FPath)
    (ds : List String) (fs : FS) (d : String) (hd : d ∈ ds)
    (hg : cfg.gitkeep = true) (hw : env.writeFails (markerPath root d) = false) :
    (ds.foldl (dirStep1 env cfg root) fs).files (markerPath root d) = some "" := by
  induction ds generalizing fs with
  | nil => cases hd
  | cons a rest ih =>
    simp only [List.foldl_cons]
    rcases List.mem_cons.mp hd with h | h
    · subst h
      exact dirsFold_files_keep env cfg root rest (dirStep1 env cfg root fs d) _
        (dirStep1_marker_self env cfg root fs d hg hw)
    · exact ih (dirStep1 env cfg root fs a) h

/-- With directory listing working and the relevant removal succeeding,
the clean step erases the file at any path strictly below the root. -/
theorem cleanStep_files_none (env : Env) (root : FPath) (fs : FS) (q : FPath)
    (hq : strictUnder root q = true) (hrd : env.readDirFails = false)
    (hrm : env.removeFails (childOf root q) = false) :
    (cleanStep env root fs).files q = none := by
  simp [cleanStep, hrd, removedByClean, hq, hrm]

/-- Same for the directory bit. -/
theorem cleanStep_isDir_false (env : Env) (root : FPath) (fs : FS) (q : FPath)
    (hq : strictUnder root q = true) (hrd : env.readDirFails = false)
    (hrm : env.removeFails (childOf root q) = false) :
    (cleanStep env root fs).isDir q = false := by
  simp [cleanStep, hrd, removedByClean, hq, hrm]

/-- The clean step only ever removes: at each path the content is the
old one or gone. -/
theorem cleanStep_files_cases (env : Env) (root : FPath) (fs : FS) (q : FPath) :
    (cleanStep env root fs).files q = fs.files q ∨ (cleanStep env root fs).files q = none := by
  by_cases hrd : env.readDirFails = true
  · simp [cleanStep, hrd]
  · by_cases hb : removedByClean env root q = true <;> simp [cleanStep, hrd, hb]

/-- The preparation stages under a set clean flag leave nothing at a
path strictly below the root that is not a marker path. -/
theorem prepState_files_clean_none (env : Env) (cfg : Config) (fs : FS) (q : FPath)
    (hc : cfg.clean = true) (hrd : env.readDirFails = false)
    (hrm : env.removeFails (childOf (splitSlash cfg.root) q) = false)
    (hq : strictUnder (splitSlash cfg.root) q = true)
    (hmark : ∀ d ∈ dirs, q ≠ markerPath (splitSlash cfg.root) d) :
    (prepState env cfg fs).files q = none := by
  unfold prepState dirsStep
  simp only [hc, if_true]
  rw [dirsFold_files_pres env cfg (splitSlash cfg.root) dirs _ q hmark]
  exact cleanStep_files_none env (splitSlash cfg.root) _ q hq hrd hrm

/-- Without the clean flag, the preparation stages leave every
non-marker path's content untouched. -/
theorem prepState_files_noclean (env : Env) (cfg : Config) (fs : FS) (q : FPath)
    (hc : cfg.clean = false)
    (hmark : ∀ d ∈ dirs, q ≠ markerPath (splitSlash cfg.root) d) :
    (prepState env cfg fs).files q = fs.files q := by
  unfold prepState dirsStep
  simp only [hc, Bool.false_eq_true, if_false]
  rw [dirsFold_files_pres env cfg (splitSlash cfg.root) dirs _ q hmark]
  rfl

/-- With the gitkeep flag off, the preparation stages write no file:
each path keeps its old content unless the clean step removed it. -/
theorem prepState_files_nogitkeep (env : Env) (cfg : Config) (fs : FS) (q : FPath)
    (hg : cfg.gitkeep = false) :
    (prepState env cfg fs).files q = fs.files q ∨ (prepState env cfg fs).files q = none := by
  unfold prepState dirsStep
  rw [congrFun (dirsFold_files_id env cfg (splitSlash cfg.root) dirs _ hg) q]
  by_cases hc : cfg.clean = true
  · simp only [hc, if_true]
    exact cleanStep_files_cases env (splitSlash cfg.root) (fs.mkdirAll (splitSlash cfg.root)) q
  · simp only [hc, Bool.false_eq_true, if_false]
    exact Or.inl rfl

/-- The preparation stages keep a marker established by the directory
loop: this is how the loop left it. -/
theorem prepState_marker (env : Env) (cfg : Config) (fs : FS) (d : String)
    (hd : d ∈ dirs) (hg : cfg.gitkeep = true)
    (hw : env.writeFails (markerPath (splitSlash cfg.root) d) = false) :
    (prepState env cfg fs).files (markerPath (splitSlash cfg.root) d) = some "" := by
  unfold prepState dirsStep
  exact dirsFold_marker env cfg (splitSlash cfg.root) dirs _ d hd hg hw

/-- The preparation stages mark every manifest directory whose
`MkdirAll` succeeds. -/
theorem prepState_isDir (env : Env) (cfg : Config) (fs : FS) (d : String)
    (hd : d ∈ dirs)
    (hmk : env.mkdirFails (dirPath (splitSlash cfg.root) d) = false) :
    (prepState env cfg fs).isDir (dirPath (splitSlash cfg.root) d) = true := by
  unfold prepState dirsStep
  exact dirsFold_isDir env cfg (splitSlash cfg.root) dirs _ d hd hmk

/-- Contents after the two static files, at the module descriptor. -/
theorem staticsState_files_gomod (env : Env) (cfg : Config) (fs : FS) :
    (staticsState env cfg fs).files (splitSlash cfg.root ++ ["go.mod"])
      = some (goModContent cfg.moduleName) := by
  unfold staticsState
  rw [files_writeFile_ne _ _ (root_app_ne (splitSlash cfg.root) (by decide))]
  exact files_writeFile_self _ _ _

/-- Contents after the two static files, at the build file. -/
theorem staticsState_files_makefile (env : Env) (cfg : Config) (fs : FS) :
    (staticsState env cfg fs).files (splitSlash cfg.root ++ ["Makefile"])
      = some (makefileContent cfg.port) := by
  unfold staticsState
  exact files_writeFile_self _ _ _

/-- The static files touch nothing else. -/
theorem staticsState_files_pres (env : Env) (cfg : Config) (fs : FS) (q : FPath)
    (h1 : q ≠ splitSlash cfg.root ++ ["go.mod"])
    (h2 : q ≠ splitSlash cfg.root ++ ["Makefile"]) :
    (staticsState env cfg fs).files q = (prepState env cfg fs).files q := by
  unfold staticsState
  rw [files_writeFile_ne _ _ h2, files_writeFile_ne _ _ h1]

/-- The static files touch no directory bits. -/
theorem staticsState_isDir (env : Env) (cfg : Config) (fs : FS) :
    (staticsState env cfg fs).isDir = (prepState env cfg fs).isDir := rfl

/-- A successful `generate` run passed every checked stage: the root
was created, both static writes succeeded, and the run is exactly the
rendering loop from the state the static files left. -/
theorem generate_ok_parts (env : Env) (cfg : Config) (fs : FS)
    (hok : (generate env cfg fs).1 = Except.ok ()) :
    env.mkdirFails (splitSlash cfg.root) = false
    ∧ env.writeFails (splitSlash cfg.root ++ ["go.mod"]) = false
    ∧ env.writeFails (splitSlash cfg.root ++ ["Makefile"]) = false
    ∧ generate env cfg fs
        = runTemplates env cfg (splitSlash cfg.root) templateManifest (staticsState env cfg fs) := by
  by_cases h1 : env.mkdirFails (splitSlash cfg.root) = true
  · simp [generate, h1] at hok
  · by_cases h2 : env.writeFails (splitSlash cfg.root ++ ["go.mod"]) = true
    · simp [generate, h1, writeGoMod, h2] at hok
    · by_cases h3 : env.writeFails (splitSlash cfg.root ++ ["Makefile"]) = true
      · simp [generate, h1, writeGoMod, h2, writeMakefile, h3] at hok
      · refine ⟨by simp [h1], by simp [h2], by simp [h3], ?_⟩
        simp [generate, h1, writeGoMod, h2, writeMakefile, h3, staticsState]

/-- Root-relative output paths of the template manifest never collide
with the module descriptor. -/
theorem gomod_notin_templates (root : FPath) :
    ∀ e ∈ templateManifest, root ++ ["go.mod"] ≠ root ++ splitSlash e.1 := by
  intro e he
  simp only [templateManifest, List.mem_cons, List.not_mem_nil, or_false] at he
  rcases he with rfl | rfl | rfl | rfl <;> exact root_app_ne root (by decide)

/-- Root-relative output paths of the template manifest never collide
with the build file. -/
theorem makefile_notin_templates (root : FPath) :
    ∀ e ∈ templateManifest, root ++ ["Makefile"] ≠ root ++ splitSlash e.1 := by
  intro e he
  simp only [templateManifest, List.mem_cons, List.not_mem_nil, or_false] at he
  rcases he with rfl | rfl | rfl | rfl <;> exact root_app_ne root (by decide)

/-- A path whose last segment is `.gitkeep` is no template output. -/
theorem gitkeep_notin_templates (root : FPath) (q : FPath)
    (hq : q.getLast? = some ".gitkeep") :
    ∀ e ∈ templateManifest, q ≠ root ++ splitSlash e.1 := by
  intro e he
  simp only [templateManifest, List.mem_cons, List.not_mem_nil, or_false] at he
  rcases he with rfl | rfl | rfl | rfl
  · have h2 : (root ++ splitSlash ("cmd/main.go", "main.go.tmpl").1).getLast?
        = some "main.go" := by
      rw [getLast_root_app root (by decide)]; decide
    exact ne_of_last_ne hq h2 (by decide)
  · have h2 : (root ++ splitSlash ("services/serviceName/routes/router.go",
        "router.go.tmpl").1).getLast? = some "router.go" := by
      rw [getLast_root_app root (by decide)]; decide
    exact ne_of_last_ne hq h2 (by decide)
  · have h2 : (root ++ splitSlash ("config/init/serverConfig.go",
        "serverConfig.go.tmpl").1).getLast? = some "serverConfig.go" := by
      rw [getLast_root_app root (by decide)]; decide
    exact ne_of_last_ne hq h2 (by decide)
  · have h2 : (root ++ splitSlash ("commons/utils/logger.go",
        "logger.go.tmpl").1).getLast? = some "logger.go" := by
      rw [getLast_root_app root (by decide)]; decide
    exact ne_of_last_ne hq h2 (by decide)

/-- Marker paths end in the segment `.gitkeep`. -/
theorem markerPath_getLast (root : FPath) (d : String) :
    (markerPath root d).getLast? = some ".gitkeep" := by
  unfold markerPath
  exact List.getLast?_concat _

/-- A path whose last segment is `.gitkeep` is not the module
descriptor. -/
theorem gitkeep_ne_gomod (root : FPath) (q : FPath)
    (hq : q.getLast? = some ".gitkeep") : q ≠ root ++ ["go.mod"] :=
  ne_of_last_ne hq (List.getLast?_concat root) (by decide)

/-- A path whose last segment is `.gitkeep` is not the build file. -/
theorem gitkeep_ne_makefile (root : FPath) (q : FPath)
    (hq : q.getLast? = some ".gitkeep") : q ≠ root ++ ["Makefile"] :=
  ne_of_last_ne hq (List.getLast?_concat root) (by decide)

/-- When the root creation and both static writes succeed, `generate`
is exactly the rendering loop from the state the static files left. -/
theorem generate_eq_run (env : Env) (cfg : Config) (fs : FS)
    (h1 : env.mkdirFails (splitSlash cfg.root) = false)
    (h2 : env.writeFails (splitSlash cfg.root ++ ["go.mod"]) = false)
    (h3 : env.writeFails (splitSlash cfg.root ++ ["Makefile"]) = false) :
    generate env cfg fs
      = runTemplates env cfg (splitSlash cfg.root) templateManifest (staticsState env cfg fs) := by
  simp [generate, h1, writeGoMod, h2, writeMakefile, h3, staticsState]

/-- A discarded-error `MkdirAll` touches no file contents. -/
theorem files_ensureDir (env : Env) (fs : FS) (p : FPath) :
    (ensureDir env fs p).files = fs.files := by
  unfold ensureDir
  split <;> simp [files_mkdirAll]

/-- Directory bits of a discarded-error `MkdirAll` depend on the
starting state only through the bit already at the inspected path. -/
theorem isDir_ensureDir_cong (env : Env) (fs fs' : FS) (p q : FPath)
    (h : fs.isDir q = fs'.isDir q) :
    (ensureDir env fs p).isDir q = (ensureDir env fs' p).isDir q := by
  unfold ensureDir
  split <;> simp [FS.mkdirAll, h]

/-- Contents written by a rendering step depend on the starting state
only through the content already at the inspected path. -/
theorem writeTemplate_files_cong (env : Env) (root : FPath) (out nm : String)
    (cfg : Config) (fs fs' : FS) (q : FPath) (h : fs.files q = fs'.files q) :
    (writeTemplate env root out nm cfg fs).2.files q
      = (writeTemplate env root out nm cfg fs').2.files q := by
  by_cases hq : q = root ++ splitSlash out
  · subst hq
    rcases hemb : env.embedded ("templates/" ++ nm) with _ | text
    · simpa [writeTemplate, hemb] using h
    · rcases hp : parseT text with m | ns
      · simpa [writeTemplate, hemb, hp] using h
      · by_cases hw : env.writeFails (root ++ splitSlash out) = true
        · simpa [writeTemplate, hemb, hp, hw, files_ensureDir] using h
        · by_cases he : env.execFails nm = true <;>
            simp [writeTemplate, hemb, hp, hw, he, files_writeFile_self]
  · rw [writeTemplate_files_pres env root out nm cfg fs q hq,
      writeTemplate_files_pres env root out nm cfg fs' q hq]
    exact h

/-- Directory bits left by a rendering step depend on the starting
state only through the bit already at the inspected path. -/
theorem writeTemplate_isDir_cong (env : Env) (root : FPath) (out nm : String)
    (cfg : Config) (fs fs' : FS) (q : FPath) (h : fs.isDir q = fs'.isDir q) :
    (writeTemplate env root out nm cfg fs).2.isDir q
      = (writeTemplate env root out nm cfg fs').2.isDir q := by
  rcases hemb : env.embedded ("templates/" ++ nm) with _ | text
  · simpa [writeTemplate, hemb] using h
  · rcases hp : parseT text with m | ns
    · simpa [writeTemplate, hemb, hp] using h
    · by_cases hw : env.writeFails (root ++ splitSlash out) = true <;>
        by_cases he : env.execFails nm = true <;>
        simp [writeTemplate, hemb, hp, hw, he, isDir_writeFile] <;>
        exact isDir_ensureDir_cong env fs fs' _ q h

/-- Contents left by the rendering loop depend on the starting state
only through the content already at the inspected path. -/
theorem runTemplates_files_cong (env : Env) (cfg : Config) (root : FPath)
    (es : List (String × String)) (fs fs' : FS) (q : FPath)
    (h : fs.files q = fs'.files q) :
    (runTemplates env cfg root es fs).2.files q
      = (runTemplates env cfg root es fs').2.files q := by
  induction es generalizing fs fs' with
  | nil => exact h
  | cons e rest ih =>
    have hc := writeTemplate_files_cong env root e.1 e.2 cfg fs fs' q h
    have hfst := writeTemplate_fst_indep env root e.1 e.2 cfg fs fs'
    rcases hw : writeTemplate env root e.1 e.2 cfg fs with ⟨r, fs1⟩
    rcases hw2 : writeTemplate env root e.1 e.2 cfg fs' with ⟨r2, fs2⟩
    rw [hw, hw2] at hfst hc
    simp only at hfst hc
    subst hfst
    cases r with
    | ok u => simp only [runTemplates, hw, hw2]; exact ih fs1 fs2 hc
    | error err => simp only [runTemplates, hw, hw2]; exact hc

/-- Directory bits left by the rendering loop depend on the starting
state only through the bit already at the inspected path. -/
theorem runTemplates_isDir_cong (env : Env) (cfg : Config) (root : FPath)
    (es : List (String × String)) (fs fs' : FS) (q : FPath)
    (h : fs.isDir q = fs'.isDir q) :
    (runTemplates env cfg root es fs).2.isDir q
      = (runTemplates env cfg root es fs').2.isDir q := by
  induction es generalizing fs fs' with
  | nil => exact h
  | cons e rest ih =>
    have hc := writeTemplate_isDir_cong env root e.1 e.2 cfg fs fs' q h
    have hfst := writeTemplate_fst_indep env root e.1 e.2 cfg fs fs'
    rcases hw : writeTemplate env root e.1 e.2 cfg fs with ⟨r, fs1⟩
    rcases hw2 : writeTemplate env root e.1 e.2 cfg fs' with ⟨r2, fs2⟩
    rw [hw, hw2] at hfst hc
    simp only at hfst hc
    subst hfst
    cases r with
    | ok u => simp only [runTemplates, hw, hw2]; exact ih fs1 fs2 hc
    | error err => simp only [runTemplates, hw, hw2]; exact hc

/-- Contents left by one directory-loop iteration depend on the
starting state only through the content already at the inspected
path. -/
theorem dirStep1_files_cong (env : Env) (cfg : Config) (root : FPath)
    (fs fs' : FS) (d : String) (q : FPath) (h : fs.files q = fs'.files q) :
    (dirStep1 env cfg root fs d).files q = (dirStep1 env cfg root fs' d).files q := by
  rw [dirStep1_files_eq, dirStep1_files_eq]
  split <;> simp [h]

/-- Same for directory bits. -/
theorem dirStep1_isDir_cong (env : Env) (cfg : Config) (root : FPath)
    (fs fs' : FS) (d : String) (q : FPath) (h : fs.isDir q = fs'.isDir q) :
    (dirStep1 env cfg root fs d).isDir q = (dirStep1 env cfg root fs' d).isDir q := by
  rw [dirStep1_isDir_eq, dirStep1_isDir_eq]
  split <;> simp [h]

/-- Contents left by the directory loop depend on the starting state
only through the content already at the inspected path. -/
theorem dirsFold_files_cong (env : Env) (cfg : Config) (root : FPath)
    (ds : List String) (fs fs' : FS) (q : FPath) (h : fs.files q = fs'.files q) :
    (ds.foldl (dirStep1 env cfg root) fs).files q
      = (ds.foldl (dirStep1 env cfg root) fs').files q := by
  induction ds generalizing fs fs' with
  | nil => exact h
  | cons d rest ih =>
    simp only [List.foldl_cons]
    exact ih (dirStep1 env cfg root fs d) (dirStep1 env cfg root fs' d)
      (dirStep1_files_cong env cfg root fs fs' d q h)

/-- Same for directory bits. -/
theorem dirsFold_isDir_cong (env : Env) (cfg : Config) (root : FPath)
    (ds : List String) (fs fs' : FS) (q : FPath) (h : fs.isDir q = fs'.isDir q) :
    (ds.foldl (dirStep1 env cfg root) fs).isDir q
      = (ds.foldl (dirStep1 env cfg root) fs').isDir q := by
  induction ds generalizing fs fs' with
  | nil => exact h
  | cons d rest ih =>
    simp only [List.foldl_cons]
    exact ih (dirStep1 env cfg root fs d) (dirStep1 env cfg root fs' d)
      (dirStep1_isDir_cong env cfg root fs fs' d q h)

/-- Under a working store whose listed templates all parse, the
rendering loop leaves some content at the output path of every listed
entry. -/
theorem runTemplates_writes (store : String → Option String) (cfg : Config)
    (root : FPath) (es : List (String × String)) (fs : FS) (e : String × String)
    (he : e ∈ es)
    (hT : ∀ e2 ∈ es, ∃ txt ns, store ("templates/" ++ e2.2) = some txt
        ∧ parseT txt = Except.ok ns) :
    ∃ c, (runTemplates (okEnv store) cfg root es fs).2.files (root ++ splitSlash e.1) = some c := by
  induction es generalizing fs with
  | nil => cases he
  | cons a rest ih =>
    obtain ⟨txt, ns, ha, hp⟩ := hT a (by simp)
    have hfst : (writeTemplate (okEnv store) root a.1 a.2 cfg fs).1 = Except.ok () := by
      simp [writeTemplate, ha, hp, okEnv]
    have hsnd : (writeTemplate (okEnv store) root a.1 a.2 cfg fs).2.files (root ++ splitSlash a.1)
        = some (execT ns (substMap cfg)) := by
      simp [writeTemplate, ha, hp, okEnv, files_writeFile_self]
    rcases hw : writeTemplate (okEnv store) root a.1 a.2 cfg fs with ⟨r, fs1⟩
    rw [hw] at hfst hsnd
    simp only at hfst hsnd
    subst hfst
    rcases List.mem_cons.mp he with h | h
    · subst h
      simp only [runTemplates, hw]
      rcases runTemplates_files_some (okEnv store) cfg root rest fs1 (root ++ splitSlash e.1)
        with h1 | h1
      · exact ⟨execT ns (substMap cfg), by rw [h1]; exact hsnd⟩
      · exact h1
    · simp only [runTemplates, hw]
      exact ih fs1 h (fun e2 he2 => hT e2 (by simp [he2]))

/-- C1: for every module identifier and port string, a successful
generation writes a module descriptor `go.mod` whose entire text is the
fixed template with exactly `module <moduleName>` as its module line,
and a build file `Makefile` whose entire text is the fixed template
whose first line is exactly `PORT ?= <port>`; no other part of either
file's text varies with the configuration. -/
theorem C1_static_substitution (env : Env) (cfg : Config) (fs : FS)
    (hok : (generate env cfg fs).1 = Except.ok ()) :
    (generate env cfg fs).2.files (splitSlash cfg.root ++ ["go.mod"])
        = some ("module " ++ cfg.moduleName ++ "\n\ngo 1.22.0\n")
    ∧ (generate env cfg fs).2.files (splitSlash cfg.root ++ ["Makefile"])
        = some ("PORT ?= " ++ cfg.port
          ++ "\n\nrun:\n\tgo run ./cmd/main.go\n\nbuild:\n\tgo build -o bin/app ./cmd/main.go\n\ntest:\n\tgo test ./...\n\nsetup:\n\tgo mod tidy\n") := by
  obtain ⟨h1, h2, h3, heq⟩ := generate_ok_parts env cfg fs hok
  rw [heq]
  constructor
  · rw [runTemplates_files_pres env cfg (splitSlash cfg.root) templateManifest _ _
      (gomod_notin_templates (splitSlash cfg.root))]
    rw [staticsState_files_gomod]
    rfl
  · rw [runTemplates_files_pres env cfg (splitSlash cfg.root) templateManifest _ _
      (makefile_notin_templates (splitSlash cfg.root))]
    rw [staticsState_files_makefile]
    rfl

/-- Witness for C1: module `github.com/acme/widget` and port `9090`
land verbatim in the two rendered files of a concrete successful run. -/
theorem C1_static_substitution_witness :
    (generate envOkX cfgAcme emptyFS).2.files (splitSlash cfgAcme.root ++ ["go.mod"])
        = some "module github.com/acme/widget\n\ngo 1.22.0\n"
    ∧ (generate envOkX cfgAcme emptyFS).2.files (splitSlash cfgAcme.root ++ ["Makefile"])
        = some "PORT ?= 9090\n\nrun:\n\tgo run ./cmd/main.go\n\nbuild:\n\tgo build -o bin/app ./cmd/main.go\n\ntest:\n\tgo test ./...\n\nsetup:\n\tgo mod tidy\n" :=
  C1_static_substitution envOkX cfgAcme emptyFS rfl

/-- C3: when creating the root directory fails, `generate` returns
the root-creation failure at once with the file system wholly
untouched — no clean step, no manifest directory, no file write — and
the process exits with code 1 after printing the error to the error
stream; every run whose generation succeeds exits 0. -/
theorem C3_root_failure (env : Env) (cfg : Config) (fs : FS)
    (hfail : env.mkdirFails (splitSlash cfg.root) = true) :
    generate env cfg fs = (Except.error GenError.rootCreationFailed, fs)
    ∧ (runMain env cfg fs).1 = { exitCode := 1, stderrMsg := some GenError.rootCreationFailed }
    ∧ (∀ env2 cfg2 fs2, (generate env2 cfg2 fs2).1 = Except.ok ()
        → (runMain env2 cfg2 fs2).1 = { exitCode := 0, stderrMsg := none }) := by
  have hgen : generate env cfg fs = (Except.error GenError.rootCreationFailed, fs) := by
    simp [generate, hfail]
  refine ⟨hgen, by simp [runMain, hgen], ?_⟩
  intro env2 cfg2 fs2 hok
  rcases hg : generate env2 cfg2 fs2 with ⟨r, fs3⟩
  rw [hg] at hok
  simp only at hok
  subst hok
  simp [runMain, hg]

/-- Witness for C3: a concrete failing root creation returns the error
with the starting state intact and exits 1; a concrete working run
exits 0. -/
theorem C3_root_failure_witness :
    generate envRootFail cfgPlain fsFoo = (Except.error GenError.rootCreationFailed, fsFoo)
    ∧ (runMain envRootFail cfgPlain fsFoo).1
        = { exitCode := 1, stderrMsg := some GenError.rootCreationFailed }
    ∧ (runMain envOkX cfgPlain emptyFS).1 = { exitCode := 0, stderrMsg := none } := by
  have h := C3_root_failure envRootFail cfgPlain fsFoo rfl
  exact ⟨h.1, h.2.1, h.2.2 envOkX cfgPlain emptyFS rfl⟩

/-- C4: a failing manifest entry aborts the rendering loop at once —
the loop returns exactly that entry's error together with the state the
failing call left, so no later entry is processed — and whenever the
stages before the loop succeed, `generate` returns the loop's outcome
unchanged, surfacing the underlying cause to its caller. -/
theorem C4_template_abort (env : Env) (cfg : Config) (root : FPath)
    (e : String × String) (rest : List (String × String)) (s : FS) (err : GenError)
    (hfail : (writeTemplate env root e.1 e.2 cfg s).1 = Except.error err) :
    runTemplates env cfg root (e :: rest) s
        = (Except.error err, (writeTemplate env root e.1 e.2 cfg s).2)
    ∧ (env.mkdirFails (splitSlash cfg.root) = false →
        env.writeFails (splitSlash cfg.root ++ ["go.mod"]) = false →
        env.writeFails (splitSlash cfg.root ++ ["Makefile"]) = false →
        ∀ fs, generate env cfg fs
          = runTemplates env cfg (splitSlash cfg.root) templateManifest (staticsState env cfg fs)) := by
  constructor
  · rcases hw : writeTemplate env root e.1 e.2 cfg s with ⟨r, fs1⟩
    rw [hw] at hfail
    simp only at hfail
    subst hfail
    simp [runTemplates, hw]
  · intro h1 h2 h3 fs
    exact generate_eq_run env cfg fs h1 h2 h3

/-- Witness for C4: with an empty template store, the loop on the first
two manifest entries stops at the first entry's load failure, leaving
exactly the state that failing call left. -/
theorem C4_template_abort_witness :
    runTemplates envNoTmpl cfgPlain ["out"]
        [("cmd/main.go", "main.go.tmpl"),
          ("services/serviceName/routes/router.go", "router.go.tmpl")] emptyFS
      = (Except.error (GenError.templateNotFound "main.go.tmpl"),
          (writeTemplate envNoTmpl ["out"] "cmd/main.go" "main.go.tmpl" cfgPlain emptyFS).2)
    ∧ (envNoTmpl.mkdirFails (splitSlash cfgPlain.root) = false →
        envNoTmpl.writeFails (splitSlash cfgPlain.root ++ ["go.mod"]) = false →
        envNoTmpl.writeFails (splitSlash cfgPlain.root ++ ["Makefile"]) = false →
        ∀ fs, generate envNoTmpl cfgPlain fs
          = runTemplates envNoTmpl cfgPlain (splitSlash cfgPlain.root) templateManifest
              (staticsState envNoTmpl cfgPlain fs)) :=
  C4_template_abort envNoTmpl cfgPlain ["out"] ("cmd/main.go", "main.go.tmpl")
    [("services/serviceName/routes/router.go", "router.go.tmpl")] emptyFS
    (GenError.templateNotFound "main.go.tmpl") rfl

/-- C9: `writeTemplate` creates and truncates its output file only
after the template text has loaded and parsed: a load or parse failure
returns its cause with the file system wholly unmodified; a creation
failure leaves the output path's content unmodified; an execution
failure leaves behind a created output file holding whatever bytes the
failing execution wrote. -/
theorem C9_writeTemplate_staging (env : Env) (root : FPath) (out nm : String)
    (cfg : Config) (fs : FS) :
    (env.embedded ("templates/" ++ nm) = none →
      writeTemplate env root out nm cfg fs
        = (Except.error (GenError.templateNotFound nm), fs))
    ∧ (∀ txt m, env.embedded ("templates/" ++ nm) = some txt → parseT txt = Except.error m →
      writeTemplate env root out nm cfg fs
        = (Except.error (GenError.templateParseError nm m), fs))
    ∧ (∀ txt ns, env.embedded ("templates/" ++ nm) = some txt → parseT txt = Except.ok ns →
      env.writeFails (root ++ splitSlash out) = true →
      (writeTemplate env root out nm cfg fs).1
          = Except.error (GenError.createFailed (root ++ splitSlash out))
      ∧ (writeTemplate env root out nm cfg fs).2.files (root ++ splitSlash out)
          = fs.files (root ++ splitSlash out))
    ∧ (∀ txt ns, env.embedded ("templates/" ++ nm) = some txt → parseT txt = Except.ok ns →
      env.writeFails (root ++ splitSlash out) = false → env.execFails nm = true →
      (writeTemplate env root out nm cfg fs).1 = Except.error (GenError.execFailed nm)
      ∧ (writeTemplate env root out nm cfg fs).2.files (root ++ splitSlash out)
          = some (env.execWritten nm)) := by
  refine ⟨?_, ?_, ?_, ?_⟩
  · intro h
    simp [writeTemplate, h]
  · intro txt m h hp
    simp [writeTemplate, h, hp]
  · intro txt ns h hp hw
    refine ⟨by simp [writeTemplate, h, hp, hw], ?_⟩
    simp [writeTemplate, h, hp, hw, files_ensureDir]
  · intro txt ns h hp hw he
    refine ⟨by simp [writeTemplate, h, hp, hw, he], ?_⟩
    simp [writeTemplate, h, hp, hw, he, files_writeFile_self]

/-- C7 as stated fails on the code: rendering a syntactically valid
template whose placeholder `FOO` is not a substitution key succeeds
without error and replaces the placeholder with the fixed text
`<no value>` — the output neither preserves the placeholder verbatim
nor is an error raised. -/
theorem C7_counterexample :
    (writeTemplate envFoo ["out"] "t.txt" "t.tmpl" cfgPlain emptyFS).1 = Except.ok ()
    ∧ (writeTemplate envFoo ["out"] "t.txt" "t.tmpl" cfgPlain emptyFS).2.files ["out", "t.txt"]
        = some "A <no value> B"
    ∧ storeFoo "templates/t.tmpl" = some "A \x7b\x7b.FOO\x7d\x7d B"
    ∧ ("A <no value> B" : String) ≠ "A \x7b\x7b.FOO\x7d\x7d B" :=
  ⟨rfl, rfl, rfl, by decide⟩

/-- C7 amended: rendering a template that loads and parses replaces a
placeholder that is not a key of the substitution data (whose keys are
exactly `MODULE` and `PORT`) with the fixed text `<no value>` — the
documented default missing-key behaviour of Go `text/template` — while
syntactically invalid template text fails at the parse stage; neither
verbatim pass-through nor a reference error occurs on a well-formed
unknown placeholder. -/
theorem C7_unknown_placeholder (env : Env) (root : FPath) (out nm fld : String)
    (cfg : Config) (fs : FS) (txt : String) (ns : List TNode)
    (hload : env.embedded ("templates/" ++ nm) = some txt)
    (hparse : parseT txt = Except.ok ns)
    (hcf : env.writeFails (root ++ splitSlash out) = false)
    (hef : env.execFails nm = false)
    (hM : fld ≠ "MODULE") (hP : fld ≠ "PORT") :
    (writeTemplate env root out nm cfg fs).1 = Except.ok ()
    ∧ (writeTemplate env root out nm cfg fs).2.files (root ++ splitSlash out)
        = some (execT ns (substMap cfg))
    ∧ execNode (substMap cfg) (TNode.field fld) = "<no value>" := by
  refine ⟨by simp [writeTemplate, hload, hparse, hcf, hef],
    by simp [writeTemplate, hload, hparse, hcf, hef, files_writeFile_self], ?_⟩
  have hMb : (fld == "MODULE") = false := by simp [hM]
  have hPb : (fld == "PORT") = false := by simp [hP]
  simp [execNode, substMap, List.lookup, hMb, hPb]

/-- Witness for C7 amended: the unknown placeholder `FOO` renders to
`<no value>` in a concrete template. -/
theorem C7_unknown_placeholder_witness :
    (writeTemplate envFoo ["out"] "t.txt" "t.tmpl" cfgPlain emptyFS).1 = Except.ok ()
    ∧ (writeTemplate envFoo ["out"] "t.txt" "t.tmpl" cfgPlain emptyFS).2.files
          (["out"] ++ splitSlash "t.txt")
        = some (execT [TNode.text "A ", TNode.field "FOO", TNode.text " B"] (substMap cfgPlain))
    ∧ execNode (substMap cfgPlain) (TNode.field "FOO") = "<no value>" :=
  C7_unknown_placeholder envFoo ["out"] "t.txt" "t.tmpl" "FOO" cfgPlain emptyFS
    "A \x7b\x7b.FOO\x7d\x7d B" [TNode.text "A ", TNode.field "FOO", TNode.text " B"]
    rfl rfl rfl rfl (by decide) (by decide)

/-- C8 as stated fails on the code: with the gitkeep flag arriving set
and the answer `n` typed at the gitkeep prompt, the resulting
configuration keeps gitkeep set instead of taking the typed negative
answer — a boolean prompt can only set its flag, never clear it. -/
theorem C8_counterexample :
    applyInteractive cfgFlagsG ansN ≠ claimedInteractive cfgFlagsG ansN
    ∧ (applyInteractive cfgFlagsG ansN).gitkeep = true
    ∧ (claimedInteractive cfgFlagsG ansN).gitkeep = false :=
  ⟨by decide, rfl, rfl⟩

/-- C8 amended: a nonblank answer (after trimming) replaces each of
the three string fields with its trimmed text and a blank answer keeps
the flag value, but each boolean field is set exactly when the trimmed,
lowercased answer is `y` and otherwise keeps the flag value — so a
negative answer cannot clear a flag that arrived set. -/
theorem C8_interactive_override (cfg : Config) (a : Answers) :
    (applyInteractive cfg a).root
        = (if trimStr a.root ≠ "" then trimStr a.root else cfg.root)
    ∧ (applyInteractive cfg a).moduleName
        = (if trimStr a.moduleName ≠ "" then trimStr a.moduleName else cfg.moduleName)
    ∧ (applyInteractive cfg a).port
        = (if trimStr a.port ≠ "" then trimStr a.port else cfg.port)
    ∧ (applyInteractive cfg a).gitkeep
        = (if lowerStr (trimStr a.gitkeep) = "y" then true else cfg.gitkeep)
    ∧ (applyInteractive cfg a).clean
        = (if lowerStr (trimStr a.clean) = "y" then true else cfg.clean) := by
  unfold applyInteractive
  by_cases h1 : trimStr a.root ≠ "" <;>
    by_cases h2 : trimStr a.moduleName ≠ "" <;>
    by_cases h3 : trimStr a.port ≠ "" <;>
    by_cases h4 : lowerStr (trimStr a.gitkeep) = "y" <;>
    by_cases h5 : lowerStr (trimStr a.clean) = "y" <;>
    simp [h1, h2, h3, h4, h5]

/-- The state `generate` leaves is one of: the prepared state (module
descriptor write failed), that state plus the module descriptor (build
file write failed), or the rendering loop's state; given the root was
created. -/
theorem generate_snd_cases (env : Env) (cfg : Config) (fs : FS)
    (hroot : env.mkdirFails (splitSlash cfg.root) = false) :
    (generate env cfg fs).2 = prepState env cfg fs
    ∨ (generate env cfg fs).2
        = (prepState env cfg fs).writeFile (splitSlash cfg.root ++ ["go.mod"])
            (goModContent cfg.moduleName)
    ∨ (generate env cfg fs).2
        = (runTemplates env cfg (splitSlash cfg.root) templateManifest
            (staticsState env cfg fs)).2 := by
  by_cases h2 : env.writeFails (splitSlash cfg.root ++ ["go.mod"]) = true
  · left
    simp [generate, hroot, writeGoMod, h2]
  · by_cases h3 : env.writeFails (splitSlash cfg.root ++ ["Makefile"]) = true
    · right; left
      simp [generate, hroot, writeGoMod, h2, writeMakefile, h3]
    · right; right
      rw [generate_eq_run env cfg fs hroot (by simpa using h2) (by simpa using h3)]

/-- Marker paths of manifest directories are written paths. -/
theorem mem_writtenPaths_marker (root : FPath) (d : String) (hd : d ∈ dirs) :
    markerPath root d ∈ writtenPaths root := by
  unfold writtenPaths markerPaths
  exact List.mem_append_left _ (List.mem_append_left _ (List.mem_map_of_mem _ hd))

/-- The module descriptor is a written path. -/
theorem mem_writtenPaths_gomod (root : FPath) :
    root ++ ["go.mod"] ∈ writtenPaths root := by
  unfold writtenPaths
  refine List.mem_append_left _ (List.mem_append_right _ ?_)
  simp

/-- The build file is a written path. -/
theorem mem_writtenPaths_makefile (root : FPath) :
    root ++ ["Makefile"] ∈ writtenPaths root := by
  unfold writtenPaths
  refine List.mem_append_left _ (List.mem_append_right _ ?_)
  simp

/-- Template outputs are written paths. -/
theorem mem_writtenPaths_out (root : FPath) (e : String × String)
    (he : e ∈ templateManifest) :
    root ++ splitSlash e.1 ∈ writtenPaths root := by
  unfold writtenPaths outPaths
  exact List.mem_append_right _ (List.mem_map_of_mem _ he)

/-- Writing the same file to two states that agree at a path keeps
them agreeing there. -/
theorem files_writeFile_cong (fs fs' : FS) (p : FPath) (c : String) (q : FPath)
    (h : fs.files q = fs'.files q) :
    (fs.writeFile p c).files q = (fs'.writeFile p c).files q := by
  simp only [FS.writeFile]
  split <;> simp [h]

/-- C5: every manifest directory is created under the resolved root,
in manifest order, an already existing directory being a no-op; exactly
under the gitkeep flag an empty `.gitkeep` marker is written into it,
overwriting any prior content of that marker; only this entry's own
`MkdirAll` and marker write matter, so a marker-write failure at
another entry does not abort this one; and without the flag no
`.gitkeep` file is created anywhere. -/
theorem C5_marker_discipline (env : Env) (cfg : Config) (fs : FS) (d : String)
    (hd : d ∈ dirs)
    (hroot : env.mkdirFails (splitSlash cfg.root) = false)
    (hmk : env.mkdirFails (dirPath (splitSlash cfg.root) d) = false)
    (hw : env.writeFails (markerPath (splitSlash cfg.root) d) = false) :
    (generate env cfg fs).2.isDir (dirPath (splitSlash cfg.root) d) = true
    ∧ (cfg.gitkeep = true →
        (generate env cfg fs).2.files (markerPath (splitSlash cfg.root) d) = some "")
    ∧ (cfg.gitkeep = false → ∀ q : FPath, q.getLast? = some ".gitkeep" →
        (generate env cfg fs).2.files q = fs.files q
        ∨ (generate env cfg fs).2.files q = none) := by
  have hlast := markerPath_getLast (splitSlash cfg.root) d
  rcases generate_snd_cases env cfg fs hroot with hcase | hcase | hcase <;> rw [hcase]
  · exact ⟨prepState_isDir env cfg fs d hd hmk,
      fun hg => prepState_marker env cfg fs d hd hg hw,
      fun hg q hq => prepState_files_nogitkeep env cfg fs q hg⟩
  · refine ⟨?_, fun hg => ?_, fun hg q hq => ?_⟩
    · rw [isDir_writeFile]
      exact prepState_isDir env cfg fs d hd hmk
    · rw [files_writeFile_ne _ _ (gitkeep_ne_gomod (splitSlash cfg.root) _ hlast)]
      exact prepState_marker env cfg fs d hd hg hw
    · rw [files_writeFile_ne _ _ (gitkeep_ne_gomod (splitSlash cfg.root) q hq)]
      exact prepState_files_nogitkeep env cfg fs q hg
  · refine ⟨?_, fun hg => ?_, fun hg q hq => ?_⟩
    · apply runTemplates_isDir_mono
      rw [staticsState_isDir]
      exact prepState_isDir env cfg fs d hd hmk
    · rw [runTemplates_files_pres env cfg (splitSlash cfg.root) templateManifest _ _
        (gitkeep_notin_templates (splitSlash cfg.root) _ hlast)]
      rw [staticsState_files_pres env cfg fs _
        (gitkeep_ne_gomod (splitSlash cfg.root) _ hlast)
        (gitkeep_ne_makefile (splitSlash cfg.root) _ hlast)]
      exact prepState_marker env cfg fs d hd hg hw
    · rw [runTemplates_files_pres env cfg (splitSlash cfg.root) templateManifest _ q
        (gitkeep_notin_templates (splitSlash cfg.root) q hq)]
      rw [staticsState_files_pres env cfg fs q
        (gitkeep_ne_gomod (splitSlash cfg.root) q hq)
        (gitkeep_ne_makefile (splitSlash cfg.root) q hq)]
      exact prepState_files_nogitkeep env cfg fs q hg

/-- Witness for C5 at the manifest directory `cmd` of a concrete run
with the gitkeep flag set. -/
theorem C5_marker_discipline_witness :
    (generate envOkX cfgAcme emptyFS).2.isDir (dirPath (splitSlash cfgAcme.root) "cmd") = true
    ∧ (cfgAcme.gitkeep = true →
        (generate envOkX cfgAcme emptyFS).2.files (markerPath (splitSlash cfgAcme.root) "cmd")
          = some "")
    ∧ (cfgAcme.gitkeep = false → ∀ q : FPath, q.getLast? = some ".gitkeep" →
        (generate envOkX cfgAcme emptyFS).2.files q = emptyFS.files q
        ∨ (generate envOkX cfgAcme emptyFS).2.files q = none) :=
  C5_marker_discipline envOkX cfgAcme emptyFS "cmd" (by decide) rfl rfl rfl

/-- C6: exactly under the clean flag, the content at every path
strictly below the resolved root that the manifest does not write is
gone after generation — a pre-existing `foo.txt` no longer exists —
while without the flag every such path keeps its prior content
untouched. -/
theorem C6_clean_purge (env : Env) (cfg : Config) (fs : FS) (q : FPath)
    (hff : EnvFailFree env)
    (hq : strictUnder (splitSlash cfg.root) q = true)
    (hnw : q ∉ writtenPaths (splitSlash cfg.root)) :
    (cfg.clean = true → (generate env cfg fs).2.files q = none)
    ∧ (cfg.clean = false → (generate env cfg fs).2.files q = fs.files q) := by
  have hmark : ∀ d ∈ dirs, q ≠ markerPath (splitSlash cfg.root) d := by
    intro d hd he
    exact hnw (he ▸ mem_writtenPaths_marker (splitSlash cfg.root) d hd)
  have hgm : q ≠ splitSlash cfg.root ++ ["go.mod"] := by
    intro he
    exact hnw (he ▸ mem_writtenPaths_gomod (splitSlash cfg.root))
  have hmk : q ≠ splitSlash cfg.root ++ ["Makefile"] := by
    intro he
    exact hnw (he ▸ mem_writtenPaths_makefile (splitSlash cfg.root))
  have houts : ∀ e ∈ templateManifest, q ≠ splitSlash cfg.root ++ splitSlash e.1 := by
    intro e hein he
    exact hnw (he ▸ mem_writtenPaths_out (splitSlash cfg.root) e hein)
  have hgen := generate_eq_run env cfg fs (hff.mkdir _) (hff.write _) (hff.write _)
  rw [hgen]
  rw [runTemplates_files_pres env cfg (splitSlash cfg.root) templateManifest _ q houts]
  rw [staticsState_files_pres env cfg fs q hgm hmk]
  exact ⟨fun hc => prepState_files_clean_none env cfg fs q hc hff.readDir (hff.remove _) hq hmark,
    fun hc => prepState_files_noclean env cfg fs q hc hmark⟩

/-- Witness for C6: a concrete clean run removes the pre-existing
`out/foo.txt`, and the same run without the clean flag keeps it. -/
theorem C6_clean_purge_witness :
    (generate envOkX cfgAcme fsFoo).2.files ["out", "foo.txt"] = none
    ∧ (generate envOkX cfgPlain fsFoo).2.files ["out", "foo.txt"]
        = fsFoo.files ["out", "foo.txt"] :=
  ⟨(C6_clean_purge envOkX cfgAcme fsFoo ["out", "foo.txt"]
      ⟨fun _ => rfl, fun _ => rfl, fun _ => rfl, rfl, fun _ => rfl⟩ rfl (by decide)).1 rfl,
    (C6_clean_purge envOkX cfgPlain fsFoo ["out", "foo.txt"]
      ⟨fun _ => rfl, fun _ => rfl, fun _ => rfl, rfl, fun _ => rfl⟩ rfl (by decide)).2 rfl⟩

/-- C10: under the gitkeep flag and a working environment whose
manifest templates all load and parse, each of the four directories
that receive a rendered source file — `cmd`,
`services/serviceName/routes`, `config/init`, `commons/utils`, all
manifest directories — ends the run holding both its `.gitkeep` marker
and the rendered file: nothing after the directory loop removes a
marker. -/
theorem C10_markers_with_rendered (store : String → Option String) (cfg : Config)
    (fs : FS) (hg : cfg.gitkeep = true)
    (hT : ∀ e ∈ templateManifest, ∃ txt ns, store ("templates/" ++ e.2) = some txt
        ∧ parseT txt = Except.ok ns) :
    ∀ pr ∈ srcDirPairs, pr.2 ∈ dirs
      ∧ (generate (okEnv store) cfg fs).2.files (markerPath (splitSlash cfg.root) pr.2)
          = some ""
      ∧ ∃ c, (generate (okEnv store) cfg fs).2.files
          (splitSlash cfg.root ++ splitSlash pr.1) = some c := by
  intro pr hpr
  have hgen := generate_eq_run (okEnv store) cfg fs rfl rfl rfl
  rw [hgen]
  have hmarker : ∀ d : String, d ∈ dirs →
      (runTemplates (okEnv store) cfg (splitSlash cfg.root) templateManifest
        (staticsState (okEnv store) cfg fs)).2.files (markerPath (splitSlash cfg.root) d)
      = some "" := by
    intro d hd
    have hlast := markerPath_getLast (splitSlash cfg.root) d
    rw [runTemplates_files_pres (okEnv store) cfg (splitSlash cfg.root) templateManifest _ _
      (gitkeep_notin_templates (splitSlash cfg.root) _ hlast)]
    rw [staticsState_files_pres (okEnv store) cfg fs _
      (gitkeep_ne_gomod (splitSlash cfg.root) _ hlast)
      (gitkeep_ne_makefile (splitSlash cfg.root) _ hlast)]
    exact prepState_marker (okEnv store) cfg fs d hd hg rfl
  simp only [srcDirPairs, List.mem_cons, List.not_mem_nil, or_false] at hpr
  rcases hpr with rfl | rfl | rfl | rfl
  · exact ⟨by decide, hmarker "cmd" (by decide),
      runTemplates_writes store cfg (splitSlash cfg.root) templateManifest _
        ("cmd/main.go", "main.go.tmpl") (by decide) hT⟩
  · exact ⟨by decide, hmarker "services/serviceName/routes" (by decide),
      runTemplates_writes store cfg (splitSlash cfg.root) templateManifest _
        ("services/serviceName/routes/router.go", "router.go.tmpl") (by decide) hT⟩
  · exact ⟨by decide, hmarker "config/init" (by decide),
      runTemplates_writes store cfg (splitSlash cfg.root) templateManifest _
        ("config/init/serverConfig.go", "serverConfig.go.tmpl") (by decide) hT⟩
  · exact ⟨by decide, hmarker "commons/utils" (by decide),
      runTemplates_writes store cfg (splitSlash cfg.root) templateManifest _
        ("commons/utils/logger.go", "logger.go.tmpl") (by decide) hT⟩

/-- Witness for C10 at the `cmd` directory of a concrete run: marker
and rendered file coexist. -/
theorem C10_markers_with_rendered_witness :
    ("cmd" ∈ dirs)
    ∧ (generate (okEnv storeX) cfgAcme emptyFS).2.files
        (markerPath (splitSlash cfgAcme.root) "cmd") = some ""
    ∧ ∃ c, (generate (okEnv storeX) cfgAcme emptyFS).2.files
        (splitSlash cfgAcme.root ++ splitSlash "cmd/main.go") = some c :=
  C10_markers_with_rendered storeX cfgAcme emptyFS rfl
    (fun _ _ => ⟨"x", [TNode.text "x"], rfl, rfl⟩) ("cmd/main.go", "cmd") (by decide)

/-- C2: with the clean flag set and every operating-system call
succeeding, the outcome and the whole tree below the resolved root
after `generate` do not depend on the starting state — so two
successive runs with the same configuration produce byte-identical
trees under the root. -/
theorem C2_clean_determinism (env : Env) (cfg : Config) (fs fs' : FS) (q : FPath)
    (hc : cfg.clean = true) (hff : EnvFailFree env)
    (hq : strictUnder (splitSlash cfg.root) q = true) :
    (generate env cfg fs).1 = (generate env cfg fs').1
    ∧ (generate env cfg fs).2.files q = (generate env cfg fs').2.files q
    ∧ (generate env cfg fs).2.isDir q = (generate env cfg fs').2.isDir q := by
  have hgen := generate_eq_run env cfg fs (hff.mkdir _) (hff.write _) (hff.write _)
  have hgen2 := generate_eq_run env cfg fs' (hff.mkdir _) (hff.write _) (hff.write _)
  rw [hgen, hgen2]
  have hpf : (prepState env cfg fs).files q = (prepState env cfg fs').files q := by
    unfold prepState dirsStep
    simp only [hc, if_true]
    apply dirsFold_files_cong
    rw [cleanStep_files_none env _ _ q hq hff.readDir (hff.remove _),
      cleanStep_files_none env _ _ q hq hff.readDir (hff.remove _)]
  have hpd : (prepState env cfg fs).isDir q = (prepState env cfg fs').isDir q := by
    unfold prepState dirsStep
    simp only [hc, if_true]
    apply dirsFold_isDir_cong
    rw [cleanStep_isDir_false env _ _ q hq hff.readDir (hff.remove _),
      cleanStep_isDir_false env _ _ q hq hff.readDir (hff.remove _)]
  have hsf : (staticsState env cfg fs).files q = (staticsState env cfg fs').files q := by
    unfold staticsState
    exact files_writeFile_cong _ _ _ _ q (files_writeFile_cong _ _ _ _ q hpf)
  have hsd : (staticsState env cfg fs).isDir q = (staticsState env cfg fs').isDir q := by
    rw [staticsState_isDir, staticsState_isDir]
    exact hpd
  exact ⟨runTemplates_fst_indep env cfg (splitSlash cfg.root) templateManifest _ _,
    runTemplates_files_cong env cfg (splitSlash cfg.root) templateManifest _ _ q hsf,
    runTemplates_isDir_cong env cfg (splitSlash cfg.root) templateManifest _ _ q hsd⟩

/-- Witness for C2 at a concrete clean configuration: two runs, one
from an empty tree and one from a tree holding `out/foo.txt`, agree in
outcome, content and directory bit at a path under the root. -/
theorem C2_clean_determinism_witness :
    (generate envOkX cfgAcme emptyFS).1 = (generate envOkX cfgAcme fsFoo).1
    ∧ (generate envOkX cfgAcme emptyFS).2.files ["out", "foo.txt"]
        = (generate envOkX cfgAcme fsFoo).2.files ["out", "foo.txt"]
    ∧ (generate envOkX cfgAcme emptyFS).2.isDir ["out", "foo.txt"]
        = (generate envOkX cfgAcme fsFoo).2.isDir ["out", "foo.txt"] :=
  C2_clean_determinism envOkX cfgAcme emptyFS fsFoo ["out", "foo.txt"] rfl
    ⟨fun _ => rfl, fun _ => rfl, fun _ => rfl, rfl, fun _ => rfl⟩ (by decide)
